import Mathlib

/-!
# Todo list service and client adapter

A shallow embedding of `todoserver.mjs` (the four HTTP handlers and their
validation helpers) and of `public/todoApi.js` (the three client calls),
followed by the properties proved about them.

JavaScript values are embedded as `Option Json`: `none` is `undefined`, and
`some j` is a value that JSON (or the query-string parser) can produce.
The document store is the list of its documents, each under its `_id`, an
ObjectId; every store primitive returns `Except String _`, the error being the
message of the exception the primitive throws. A lookup by id first casts the
string it is given to an ObjectId, which throws for a string that is not 24
hexadecimal digits.
-/

deriving instance DecidableEq for Except

namespace Todo

/-! ## JavaScript values -/

/-- A JSON value. Numbers carry an integer payload; the code never inspects
the numeric value, only `typeof`. -/
inductive Json where
  | null
  | bool (b : Bool)
  | num (n : Int)
  | str (s : String)
  | arr (items : List Json)
  | obj (members : List (String × Json))

/-- The `typeof` operator; `none` is `undefined`. -/
def typeOf : Option Json → String
  | none => "undefined"
  | some .null => "object"
  | some (.bool _) => "boolean"
  | some (.num _) => "number"
  | some (.str _) => "string"
  | some (.arr _) => "object"
  | some (.obj _) => "object"

/-- The test `value !== undefined`. -/
def notUndefined : Option Json → Bool
  | none => false
  | some _ => true

/-- The test `value !== null`. -/
def notNull : Option Json → Bool
  | some .null => false
  | _ => true

/-- The `length` of a value known to be a string (0 for anything else, which
the callers never ask for). -/
def strLength : Option Json → Nat
  | some (.str s) => s.length
  | _ => 0

/-- Own property lookup in the member list of an object; a missing key is
`undefined`. The list holds each key once, as the members of a parsed object
do. -/
def prop (members : List (String × Json)) (key : String) : Option Json :=
  members.lookup key

/-- Whether the object has the key at all, whatever its value. -/
def hasKey (members : List (String × Json)) (key : String) : Bool :=
  members.any (fun kv => kv.1 == key)

/-! ## Validation helpers (`todoserver.mjs`, lines 57-70) -/

/-- Source: `isDefined`: `value !== undefined && value !== null &&
typeof(value) !== 'undefined'`. -/
def isDefined (value : Option Json) : Bool :=
  notUndefined value && notNull value && (typeOf value != "undefined")

/-- Source: `isNonEmptyString`: `isDefined(value) && typeof(value) === "string"
&& value.length > 0`. -/
def isNonEmptyString (value : Option Json) : Bool :=
  isDefined value && (typeOf value == "string") && decide (strLength value > 0)

/-! ## Documents and the store -/

/-- The `_id` of a document: the 12-byte value of an ObjectId, written as 24
hexadecimal digits. -/
abbrev ObjectId := Nat

/-- The value of a hexadecimal digit, in either case. -/
def hexDigit (c : Char) : Option Nat :=
  if '0' ≤ c ∧ c ≤ '9' then some (c.toNat - '0'.toNat)
  else if 'a' ≤ c ∧ c ≤ 'f' then some (c.toNat - 'a'.toNat + 10)
  else if 'A' ≤ c ∧ c ≤ 'F' then some (c.toNat - 'A'.toNat + 10)
  else none

/-- The strings that denote an ObjectId: 24 hexadecimal digits. -/
def isObjectIdString (value : String) : Bool :=
  value.length == 24 && value.toList.all (fun c => (hexDigit c).isSome)

/-- The ObjectId that 24 hexadecimal digits denote; the case of the digits
does not matter. -/
def objectIdValue (value : String) : ObjectId :=
  value.toList.foldl (fun acc c => 16 * acc + (hexDigit c).getD 0) 0

/-- The message of the `CastError` that a lookup throws for a string that
denotes no ObjectId. -/
def castErrorMessage (value : String) : String :=
  "Cast to ObjectId failed for value \"" ++ value
    ++ "\" (type string) at path \"_id\" for model \"todos\""

/-- The cast of the id of a lookup to the type of `_id`: it throws for a
string that is not 24 hexadecimal digits. -/
def castObjectId (value : String) : Except String ObjectId :=
  if isObjectIdString value then .ok (objectIdValue value)
  else .error (castErrorMessage value)

/-- A todo document: the four schema fields and the `_id` the store keeps. -/
structure Item where
  id : ObjectId
  task : String
  owner : String
  completed : Bool
  creation_date : Nat
deriving DecidableEq, Repr

/-- The body handed to `response.json`. -/
inductive Response where
  /-- the plain array of `GET /todos` -/
  | todos (items : List Item)
  /-- the envelope `{status:"error", message}` -/
  | error (message : String)
  /-- the bare envelope `{status:"success"}` -/
  | success
  /-- the envelope `{status:"success", todo}` -/
  | successTodo (todo : Item)
deriving DecidableEq, Repr

/-- The documents of the `todos` collection. -/
abbrev Store := List Item

/-- What a single request sees of the outside world: the clock, the `_id`
given to a document constructed during the request, and for each store
primitive whether its call throws (and with which message). -/
structure Env where
  now : Nat
  newId : ObjectId
  findError : Option String
  saveError : Option String
  findByIdError : Option String
  findByIdAndDeleteError : Option String

/-- Schema cast of a field of type `String`; the handlers reach it only with
strings. -/
def castString : Option Json → String
  | some (.str s) => s
  | _ => ""

/-- Schema cast of a field of type `Boolean`; the handlers reach it only with
booleans. -/
def castBoolean : Option Json → Bool
  | some (.bool b) => b
  | _ => false

namespace todo_model

/-- Primitive `todo_model.find()`: every document, or the exception. -/
def find (env : Env) (s : Store) : Except String (List Item) :=
  match env.findError with
  | some m => .error m
  | none => .ok s

/-- Primitive `todo_model.findById(id)`: the id is cast to an ObjectId, which
throws for a string that denotes none; then the document with that `_id`,
`none` (JavaScript `null`) when there is none, or the exception of the store
call. -/
def findById (env : Env) (s : Store) (id : String) : Except String (Option Item) :=
  match castObjectId id with
  | .error m => .error m
  | .ok oid =>
    match env.findByIdError with
    | some m => .error m
    | none => .ok (s.find? (fun x => x.id == oid))

/-- Primitive `doc.save()`. A new document is inserted, which the unique index
on `_id` refuses when the `_id` is taken; a loaded document replaces the stored
one with its `_id`. A failed save leaves the store as it was. -/
def save (env : Env) (s : Store) (isNew : Bool) (doc : Item) : Except String Store :=
  match env.saveError with
  | some m => .error m
  | none =>
    if isNew then
      if s.any (fun x => x.id == doc.id) then .error "E11000 duplicate key error"
      else .ok (s ++ [doc])
    else .ok (s.map (fun x => if x.id == doc.id then doc else x))

/-- Primitive `todo_model.findByIdAndDelete(id)`: the id is cast to an
ObjectId, which throws for a string that denotes none; then the document with
that `_id` is removed and returned, `none` (JavaScript `null`) when there is
none, or the exception of the store call. -/
def findByIdAndDelete (env : Env) (s : Store) (id : String) :
    Except String (Store × Option Item) :=
  match castObjectId id with
  | .error m => .error m
  | .ok oid =>
    match env.findByIdAndDeleteError with
    | some m => .error m
    | none =>
      match s.find? (fun x => x.id == oid) with
      | none => .ok (s, none)
      | some doc => .ok (s.filter (fun x => x.id != oid), some doc)

end todo_model

/-- A `try { body } catch (error) { handler(error.message) }` block. -/
def try_catch {α : Type} (body : Except String α) (handler : String → Except String α) :
    Except String α :=
  match body with
  | .ok a => .ok a
  | .error m => handler m

/-- The catch block shared by the four handlers: the store is as it was and the
response is `{status:"error", message:"Database Error: " + error.message}`. -/
def databaseError (s : Store) (message : String) : Except String (Store × Response) :=
  .ok (s, Response.error ("Database Error: " ++ message))

/-! ## The handlers (`todoserver.mjs`)

Each handler maps the store before the request to `.ok (store after, response
body)`; `.error m` would be an exception that leaves the handler. -/

/-- Source: `app.get("/todos")`, lines 82-92. -/
def get_todos (env : Env) (s : Store) : Except String (Store × Response) :=
  try_catch
    (do
      let todo_items ← todo_model.find env s
      pure (s, Response.todos todo_items))
    (databaseError s)

/-- Source: `app.post('/create')`, lines 110-151. -/
def post_create (env : Env) (s : Store) (query : List (String × Json)) :
    Except String (Store × Response) :=
  if !isNonEmptyString (prop query "task") then
    .ok (s, Response.error "Task must be a non-empty string")
  else if !isNonEmptyString (prop query "owner") then
    .ok (s, Response.error "Owner must be a non-empty string")
  else
    try_catch
      (do
        let newTodo : Item :=
          { id := env.newId
            task := castString (prop query "task")
            owner := castString (prop query "owner")
            completed := false
            creation_date := env.now }
        let s' ← todo_model.save env s true newTodo
        pure (s', Response.successTodo newTodo))
      (databaseError s)

/-- The three assignments of the update (lines 204-212): each field of the body
that `isDefined` overwrites the document's field. -/
def applyUpdate (todoToUpdate : Item) (updateToMake : List (String × Json)) : Item :=
  let t1 : Item :=
    if isDefined (prop updateToMake "task") then
      { todoToUpdate with task := castString (prop updateToMake "task") }
    else todoToUpdate
  let t2 : Item :=
    if isDefined (prop updateToMake "owner") then
      { t1 with owner := castString (prop updateToMake "owner") }
    else t1
  if isDefined (prop updateToMake "completed") then
    { t2 with completed := castBoolean (prop updateToMake "completed") }
  else t2

/-- Source: `app.patch('/todo')`, lines 158-228. -/
def patch_todo (env : Env) (s : Store) (query body : List (String × Json)) :
    Except String (Store × Response) :=
  if !isNonEmptyString (prop query "id") then
    .ok (s, Response.error "ID is required")
  else
    let updateToMake := body
    if isDefined (prop updateToMake "task") && !isNonEmptyString (prop updateToMake "task") then
      .ok (s, Response.error "Task must be a non-empty string")
    else if isDefined (prop updateToMake "owner")
        && !isNonEmptyString (prop updateToMake "owner") then
      .ok (s, Response.error "Owner must be a non-empty string")
    else if isDefined (prop updateToMake "completed")
        && (typeOf (prop updateToMake "completed") != "boolean") then
      .ok (s, Response.error "Completed must be a boolean value")
    else
      try_catch
        (do
          let found ← todo_model.findById env s (castString (prop query "id"))
          match found with
          | none => pure (s, Response.error "Todo not found")
          | some todoToUpdate =>
            let updated := applyUpdate todoToUpdate updateToMake
            let s' ← todo_model.save env s false updated
            pure (s', Response.successTodo updated))
        (databaseError s)

/-- Source: `app.delete("/todo")`, lines 235-264. -/
def delete_todo (env : Env) (s : Store) (query : List (String × Json)) :
    Except String (Store × Response) :=
  if !isNonEmptyString (prop query "id") then
    .ok (s, Response.error "ID is required")
  else
    try_catch
      (do
        let (s', deleted_todo) ←
          todo_model.findByIdAndDelete env s (castString (prop query "id"))
        match deleted_todo with
        | none => pure (s', Response.error "Todo not found")
        | some _ => pure (s', Response.success))
      (databaseError s)

/-- A request to one of the four endpoints. -/
inductive Request where
  | getTodos
  | create (query : List (String × Json))
  | patch (query body : List (String × Json))
  | delete (query : List (String × Json))

/-- One step of the service: the handler the router picks for the request. -/
def handle (env : Env) (s : Store) : Request → Except String (Store × Response)
  | .getTodos => get_todos env s
  | .create query => post_create env s query
  | .patch query body => patch_todo env s query body
  | .delete query => delete_todo env s query

/-- The stores the service can reach from the empty collection. -/
inductive Reachable : Store → Prop where
  | empty : Reachable []
  | step {s s' : Store} {env : Env} {req : Request} {resp : Response} :
      Reachable s → handle env s req = .ok (s', resp) → Reachable s'

/-- Every stored document has a task and an owner of length > 0. -/
def NonEmptyFields (s : Store) : Prop :=
  ∀ x ∈ s, 0 < x.task.length ∧ 0 < x.owner.length

/-- In the words of the specification: a string of length > 0. -/
def NonEmptyStr (v : Option Json) : Prop :=
  ∃ t : String, v = some (.str t) ∧ 0 < t.length

/-- In the words of the specification: a boolean. -/
def IsBool (v : Option Json) : Prop :=
  ∃ b : Bool, v = some (.bool b)

/-- A field that carries a value: the key is there and its value is not
`null`. -/
def Given (v : Option Json) : Prop :=
  v ≠ none ∧ v ≠ some .null

/-- A body that passes the field validation of `PATCH /todo`: each of the three
fields that carries a value carries one of its type. -/
def ValidUpdate (body : List (String × Json)) : Prop :=
  (Given (prop body "task") → NonEmptyStr (prop body "task")) ∧
  (Given (prop body "owner") → NonEmptyStr (prop body "owner")) ∧
  (Given (prop body "completed") → IsBool (prop body "completed"))

/-- In the words of the specification: the pre-update item with exactly the
provided fields (a string `task`, a string `owner`, a boolean `completed`)
replaced by the provided values; `id` and `creation_date` are kept. -/
def replaceProvided (old : Item) (body : List (String × Json)) : Item :=
  { id := old.id
    task := match prop body "task" with
      | some (.str t) => t
      | _ => old.task
    owner := match prop body "owner" with
      | some (.str o) => o
      | _ => old.owner
    completed := match prop body "completed" with
      | some (.bool b) => b
      | _ => old.completed
    creation_date := old.creation_date }

/-- An environment in which no store call throws. -/
def quiet (now : Nat) (newId : ObjectId) : Env :=
  { now := now, newId := newId, findError := none, saveError := none,
    findByIdError := none, findByIdAndDeleteError := none }


/-! ## The client adapter (`public/todoApi.js`) -/

/-- Source: `getToDosURL`. -/
def getToDosURL : String := "http://localhost:3000/todos"

/-- Source: `createToDoURL`. -/
def createToDoURL : String := "http://localhost:3000/create"

/-- Source: `updateToDoURL`. -/
def updateToDoURL : String := "http://localhost:3000/todo"

/-- The arguments of a `fetch` call: the URL, the method and the JSON text of
the body (kept as the value that is stringified). -/
structure FetchCall where
  url : String
  method : String
  body : Option Json

/-- What `fetch` resolved to, as far as the adapter looks at it: `response.ok`,
`response.statusText` and the value `response.json()` parses the body to. -/
structure FetchResult where
  ok : Bool
  statusText : String
  body : Json

/-- What an adapter call throws: `new Error(message)`, with the value handed to
the constructor, or the `TypeError` of reading a property of `null`. -/
inductive Thrown where
  | error (message : Option Json)
  | typeError

/-- The value of `results.key` for a parsed body and one of the keys the
adapter reads (`status`, `message`, `todo`): an object gives its member, or
`undefined`; arrays, strings, numbers and booleans have no such property. -/
def fieldOf (results : Json) (key : String) : Option Json :=
  match results with
  | .obj members => prop members key
  | _ => none

/-- The property read `results.key` as JavaScript evaluates it: reading from
`null` throws a `TypeError`. -/
def member (results : Json) (key : String) : Except Thrown (Option Json) :=
  match results with
  | .null => .error Thrown.typeError
  | _ => .ok (fieldOf results key)

/-- The test `value === "error"`. -/
def isErrorString : Option Json → Bool
  | some (.str s) => s == "error"
  | _ => false

/-- The `fetch` call of `createTodo` (lines 38-40): the URL is the template
literal with `task` and `owner` spliced in as they are. -/
def createTodoCall (task owner : String) : FetchCall :=
  { url := createToDoURL ++ "?task=" ++ task ++ "&owner=" ++ owner
    method := "POST"
    body := none }

/-- The `fetch` call of `markTodo` (lines 63-72). -/
def markTodoCall (id : String) (completed : Bool) : FetchCall :=
  { url := updateToDoURL ++ "?id=" ++ id
    method := "PATCH"
    body := some (.obj [("completed", .bool completed)]) }

/-- Source: `getTodos`, lines 12-30. -/
def getTodos (fetch : FetchCall → FetchResult) : Except Thrown (Option Json) :=
  let response := fetch { url := getToDosURL, method := "GET", body := none }
  if response.ok != true then
    .error (Thrown.error (some (.str response.statusText)))
  else do
    let results := response.body
    let status ← member results "status"
    if isErrorString status then
      let message ← member results "message"
      .error (Thrown.error message)
    else
      pure (some results)

/-- Source: `createTodo`, lines 35-55. -/
def createTodo (fetch : FetchCall → FetchResult) (task owner : String) :
    Except Thrown (Option Json) :=
  let response := fetch (createTodoCall task owner)
  if response.ok != true then
    .error (Thrown.error (some (.str response.statusText)))
  else do
    let results := response.body
    let status ← member results "status"
    if isErrorString status then
      let message ← member results "message"
      .error (Thrown.error message)
    else
      member results "todo"

/-- Source: `markTodo`, lines 60-87. -/
def markTodo (fetch : FetchCall → FetchResult) (id : String) (completed : Bool) :
    Except Thrown (Option Json) :=
  let response := fetch (markTodoCall id completed)
  if response.ok != true then
    .error (Thrown.error (some (.str response.statusText)))
  else do
    let results := response.body
    let status ← member results "status"
    if isErrorString status then
      let message ← member results "message"
      .error (Thrown.error message)
    else
      member results "todo"

/-- In the words of the specification, what an adapter call makes of a fetch
result: it fails exactly when `ok` is not true or the body's `status` is
`"error"`, with the status text in the first case and the body's `message` in
the second, and otherwise returns the payload. -/
def AdapterOutcome (r : FetchResult) (payload : Option Json)
    (out : Except Thrown (Option Json)) : Prop :=
  ((∃ e, out = .error e) ↔
    (r.ok = false ∨ (r.ok = true ∧ fieldOf r.body "status" = some (.str "error")))) ∧
  (r.ok = false → out = .error (Thrown.error (some (.str r.statusText)))) ∧
  (r.ok = true → fieldOf r.body "status" = some (.str "error") →
    out = .error (Thrown.error (fieldOf r.body "message"))) ∧
  (r.ok = true → fieldOf r.body "status" ≠ some (.str "error") → out = .ok payload)

/-! ## The query string the server sees -/

/-- Splits a text at every occurrence of the separator. -/
def splitOnChar (sep : Char) : List Char → List (List Char)
  | [] => [[]]
  | c :: cs =>
    if c = sep then [] :: splitOnChar sep cs
    else
      match splitOnChar sep cs with
      | [] => [[c]]
      | part :: parts => (c :: part) :: parts

/-- The query part of a URL: what follows the first `?`, once everything from
the first `#` on is dropped. -/
def queryPart (url : String) : List Char :=
  ((url.toList.takeWhile (fun c => c != '#')).dropWhile (fun c => c != '?')).drop 1

/-- A `key=value` pair, split at its first `=`. -/
def splitPair (pair : List Char) : String × String :=
  (String.mk (pair.takeWhile (fun c => c != '=')),
    String.mk ((pair.dropWhile (fun c => c != '=')).drop 1))

/-- The pairs of the query part of a URL: split at `&`, each pair split at its
first `=`. -/
def queryPairs (url : String) : List (String × String) :=
  (splitOnChar '&' (queryPart url)).map splitPair

/-- The values the query gives for a key. -/
def valuesOf (pairs : List (String × String)) (key : String) : List String :=
  (pairs.filter (fun kv => kv.1 == key)).map (fun kv => kv.2)

/-! ## Helper lemmas -/

theorem isNonEmptyString_iff (v : Option Json) :
    isNonEmptyString v = true ↔ NonEmptyStr v := by
  rcases v with _ | (_ | b | n | s | xs | ms) <;>
    simp [isNonEmptyString, isDefined, notUndefined, notNull, typeOf, strLength, NonEmptyStr]

theorem isNonEmptyString_eq_false_iff (v : Option Json) :
    isNonEmptyString v = false ↔ ¬ NonEmptyStr v := by
  rw [← isNonEmptyString_iff]; simp

theorem isDefined_iff (v : Option Json) : isDefined v = true ↔ Given v := by
  rcases v with _ | (_ | b | n | s | xs | ms) <;>
    simp [isDefined, notUndefined, notNull, typeOf, Given]

theorem isDefined_eq_false_iff (v : Option Json) : isDefined v = false ↔ ¬ Given v := by
  rw [← isDefined_iff]; simp

theorem typeOf_boolean_iff (v : Option Json) : typeOf v = "boolean" ↔ IsBool v := by
  rcases v with _ | (_ | b | n | s | xs | ms) <;> simp [typeOf, IsBool]

theorem castObjectId_ok_iff (value : String) (oid : ObjectId) :
    castObjectId value = .ok oid ↔ isObjectIdString value = true ∧ objectIdValue value = oid := by
  unfold castObjectId
  cases h : isObjectIdString value <;> simp

theorem castObjectId_error_iff (value m : String) :
    castObjectId value = .error m ↔
      isObjectIdString value = false ∧ castErrorMessage value = m := by
  unfold castObjectId
  cases h : isObjectIdString value <;> simp

theorem length_pos_of_castObjectId (value : String) (oid : ObjectId)
    (h : castObjectId value = .ok oid) : 0 < value.length := by
  have h24 := ((castObjectId_ok_iff value oid).1 h).1
  simp [isObjectIdString] at h24
  omega

/-! ## Create -/

/-- C1: a `POST /create` whose `task` is missing or not a string of length > 0
is answered `Task must be a non-empty string` (whatever `owner` is); one whose
`task` is such a string and whose `owner` is not is answered `Owner must be a
non-empty string`; in both cases the store is returned as it was, whatever the
environment. -/
theorem post_create_rejects (env : Env) (s : Store) (query : List (String × Json))
    (h : ¬ (NonEmptyStr (prop query "task") ∧ NonEmptyStr (prop query "owner"))) :
    (¬ NonEmptyStr (prop query "task") →
      post_create env s query = .ok (s, Response.error "Task must be a non-empty string")) ∧
    (NonEmptyStr (prop query "task") →
      post_create env s query = .ok (s, Response.error "Owner must be a non-empty string")) := by
  constructor
  · intro ht
    have : isNonEmptyString (prop query "task") = false :=
      (isNonEmptyString_eq_false_iff _).2 ht
    simp [post_create, this]
  · intro ht
    have h1 : isNonEmptyString (prop query "task") = true := (isNonEmptyString_iff _).2 ht
    have h2 : isNonEmptyString (prop query "owner") = false :=
      (isNonEmptyString_eq_false_iff _).2 (fun ho => h ⟨ht, ho⟩)
    simp [post_create, h1, h2]

theorem post_create_rejects_witness :
    post_create (quiet 7 0xc3) [⟨0xa1, "Walk dog", "Kim", false, 3⟩]
        [("task", .str ""), ("owner", .str "Sam")]
      = .ok ([⟨0xa1, "Walk dog", "Kim", false, 3⟩],
          Response.error "Task must be a non-empty string") :=
  (post_create_rejects (quiet 7 0xc3) [⟨0xa1, "Walk dog", "Kim", false, 3⟩]
      [("task", .str ""), ("owner", .str "Sam")]
      (by simp [NonEmptyStr, prop, List.lookup])).1
    (by simp [NonEmptyStr, prop, List.lookup])

/-- C2: a `POST /create` whose `task` and `owner` are strings of length > 0, on
a store whose save does not fail and with a new id that no stored item has, is
answered `{status:"success", todo:item}` where the item carries the request's
task and owner, `completed = false`, the clock value of the request and the new
id, which differs from every id in the store before; the store afterwards is
the store before plus exactly that item. -/
theorem post_create_success (env : Env) (s : Store) (query : List (String × Json))
    (task owner : String)
    (htask : prop query "task" = some (.str task)) (htl : 0 < task.length)
    (howner : prop query "owner" = some (.str owner)) (hol : 0 < owner.length)
    (hsave : env.saveError = none) (hfresh : ∀ x ∈ s, x.id ≠ env.newId) :
    ∃ item : Item,
      post_create env s query = .ok (s ++ [item], Response.successTodo item) ∧
      item.task = task ∧ item.owner = owner ∧ item.completed = false ∧
      item.creation_date = env.now ∧ item.id = env.newId ∧ ∀ x ∈ s, x.id ≠ item.id := by
  refine ⟨⟨env.newId, task, owner, false, env.now⟩, ?_, rfl, rfl, rfl, rfl, rfl, hfresh⟩
  have h1 : isNonEmptyString (prop query "task") = true :=
    (isNonEmptyString_iff _).2 ⟨task, htask, htl⟩
  have h2 : isNonEmptyString (prop query "owner") = true :=
    (isNonEmptyString_iff _).2 ⟨owner, howner, hol⟩
  have h3 : s.any (fun x => x.id == env.newId) = false := by
    simpa using hfresh
  simp only [post_create, h1, h2]
  simp [todo_model.save, hsave, h3, try_catch, htask, howner, castString, bind, Except.bind,
    pure, Except.pure]

theorem post_create_success_witness :
    ∃ item : Item,
      post_create (quiet 7 0xc3) [⟨0xa1, "Walk dog", "Kim", false, 3⟩]
          [("task", .str "Buy milk"), ("owner", .str "Sam")]
        = .ok ([⟨0xa1, "Walk dog", "Kim", false, 3⟩] ++ [item], Response.successTodo item) ∧
      item.task = "Buy milk" ∧ item.owner = "Sam" ∧ item.completed = false ∧
      item.creation_date = 7 ∧ item.id = 0xc3 ∧
      ∀ x ∈ [(⟨0xa1, "Walk dog", "Kim", false, 3⟩ : Item)], x.id ≠ item.id :=
  post_create_success (quiet 7 0xc3) [⟨0xa1, "Walk dog", "Kim", false, 3⟩]
    [("task", .str "Buy milk"), ("owner", .str "Sam")] "Buy milk" "Sam"
    rfl (by decide) rfl (by decide) rfl (by decide)

/-! ## Update -/

theorem applyUpdate_eq_replaceProvided (old : Item) (body : List (String × Json))
    (hv : ValidUpdate body) : applyUpdate old body = replaceProvided old body := by
  obtain ⟨ht, ho, hc⟩ := hv
  unfold applyUpdate replaceProvided
  generalize prop body "task" = vt at ht
  generalize prop body "owner" = vo at ho
  generalize prop body "completed" = vc at hc
  have e1 : ∀ v : Option Json, (Given v → NonEmptyStr v) →
      (isDefined v = false ∧ ∀ t, v ≠ some (.str t)) ∨
        ∃ t, v = some (.str t) ∧ isDefined v = true := by
    intro v hv
    rcases v with _ | (_ | b | n | s | xs | ms) <;>
      simp_all [isDefined, notUndefined, notNull, typeOf, Given, NonEmptyStr]
  have e2 : ∀ v : Option Json, (Given v → IsBool v) →
      (isDefined v = false ∧ ∀ b, v ≠ some (.bool b)) ∨
        ∃ b, v = some (.bool b) ∧ isDefined v = true := by
    intro v hv
    rcases v with _ | (_ | b | n | s | xs | ms) <;>
      simp_all [isDefined, notUndefined, notNull, typeOf, Given, IsBool]
  rcases e1 vt ht with ⟨h1, n1⟩ | ⟨t, rfl, h1⟩ <;>
  rcases e1 vo ho with ⟨h2, n2⟩ | ⟨o, rfl, h2⟩ <;>
  rcases e2 vc hc with ⟨h3, n3⟩ | ⟨b, rfl, h3⟩ <;>
  simp [h1, h2, h3, castString, castBoolean]

/-- What `PATCH /todo` does once the id and the body have passed validation. -/
theorem patch_todo_of_valid (env : Env) (s : Store) (query body : List (String × Json))
    (hid : NonEmptyStr (prop query "id")) (hv : ValidUpdate body) :
    patch_todo env s query body =
      try_catch
        (do
          let found ← todo_model.findById env s (castString (prop query "id"))
          match found with
          | none => pure (s, Response.error "Todo not found")
          | some todoToUpdate =>
            let updated := applyUpdate todoToUpdate body
            let s' ← todo_model.save env s false updated
            pure (s', Response.successTodo updated))
        (databaseError s) := by
  obtain ⟨ht, ho, hc⟩ := hv
  have h0 : isNonEmptyString (prop query "id") = true := (isNonEmptyString_iff _).2 hid
  have h1 : (isDefined (prop body "task") && !isNonEmptyString (prop body "task")) = false := by
    cases hd : isDefined (prop body "task")
    · rfl
    · simp [(isNonEmptyString_iff _).2 (ht ((isDefined_iff _).1 hd))]
  have h2 : (isDefined (prop body "owner") && !isNonEmptyString (prop body "owner")) = false := by
    cases hd : isDefined (prop body "owner")
    · rfl
    · simp [(isNonEmptyString_iff _).2 (ho ((isDefined_iff _).1 hd))]
  have h3 : (isDefined (prop body "completed")
      && (typeOf (prop body "completed") != "boolean")) = false := by
    cases hd : isDefined (prop body "completed")
    · rfl
    · simp [(typeOf_boolean_iff _).2 (hc ((isDefined_iff _).1 hd))]
  simp only [patch_todo, h0, h1, h2, h3]
  simp

/-- What `PATCH /todo` answers when the id or the body fails validation: an
error envelope that is not `Todo not found`, the store untouched. -/
theorem patch_todo_of_invalid (env : Env) (s : Store) (query body : List (String × Json))
    (h : ¬ (NonEmptyStr (prop query "id") ∧ ValidUpdate body)) :
    ∃ msg, msg ∈ ["ID is required", "Task must be a non-empty string",
        "Owner must be a non-empty string", "Completed must be a boolean value"] ∧
      patch_todo env s query body = .ok (s, Response.error msg) := by
  unfold patch_todo
  dsimp only
  split_ifs with h0 h1 h2 h3
  · exact ⟨_, by simp, rfl⟩
  · exact ⟨_, by simp, rfl⟩
  · exact ⟨_, by simp, rfl⟩
  · exact ⟨_, by simp, rfl⟩
  · exfalso
    apply h
    refine ⟨(isNonEmptyString_iff _).1 (by simpa using h0), ?_, ?_, ?_⟩
    · intro hg
      have := (isDefined_iff _).2 hg
      exact (isNonEmptyString_iff _).1 (by simpa [this] using h1)
    · intro hg
      have := (isDefined_iff _).2 hg
      exact (isNonEmptyString_iff _).1 (by simpa [this] using h2)
    · intro hg
      have := (isDefined_iff _).2 hg
      exact (typeOf_boolean_iff _).1 (by simpa [this] using h3)

theorem find?_replace (s : Store) (item : Item) (id' : ObjectId) :
    (s.map (fun x => if x.id == item.id then item else x)).find? (fun x => x.id == id')
      = (s.find? (fun x => x.id == id')).map (fun x => if x.id == item.id then item else x) := by
  induction s with
  | nil => rfl
  | cons x xs ih =>
    by_cases hx : x.id = item.id <;> by_cases hx' : x.id = id' <;>
      simp_all [List.find?_cons]

/-- C3: when a `PATCH /todo` on an item stored under the given id succeeds, the
item in the success envelope is the pre-update item with exactly the provided
fields replaced (a string `task`, a string `owner`, a boolean `completed`);
fields that carry no value keep their pre-update value, `id` and
`creation_date` are the pre-update ones whatever keys the body has, the item
stored under the id afterwards is the returned one, and every other item is
as before. A body `{completed:true}` yields the same item with `completed =
true`. -/
theorem patch_todo_frame (env : Env) (s s' : Store) (query body : List (String × Json))
    (idText : String) (id : ObjectId) (old item : Item)
    (hid : prop query "id" = some (.str idText)) (hcast : castObjectId idText = .ok id)
    (hold : s.find? (fun x => x.id == id) = some old)
    (h : patch_todo env s query body = .ok (s', Response.successTodo item)) :
    item = replaceProvided old body ∧
    item.id = old.id ∧ item.creation_date = old.creation_date ∧
    (∀ t, prop body "task" = some (.str t) → item.task = t) ∧
    (∀ o, prop body "owner" = some (.str o) → item.owner = o) ∧
    (∀ b, prop body "completed" = some (.bool b) → item.completed = b) ∧
    (¬ Given (prop body "task") → item.task = old.task) ∧
    (¬ Given (prop body "owner") → item.owner = old.owner) ∧
    (¬ Given (prop body "completed") → item.completed = old.completed) ∧
    s' = s.map (fun x => if x.id == id then item else x) ∧
    s'.find? (fun x => x.id == id) = some item ∧
    (∀ id', id' ≠ id → s'.find? (fun x => x.id == id') = s.find? (fun x => x.id == id')) ∧
    (body = [("completed", .bool true)] → item = { old with completed := true }) := by
  by_cases hval : NonEmptyStr (prop query "id") ∧ ValidUpdate body
  swap
  · obtain ⟨msg, _, hmsg⟩ := patch_todo_of_invalid env s query body hval
    rw [hmsg] at h
    simp at h
  obtain ⟨hne, hv⟩ := hval
  rw [patch_todo_of_valid env s query body hne hv] at h
  have hoid : old.id = id := by simpa using List.find?_some hold
  rcases hfe : env.findByIdError with _ | m
  swap
  · simp [todo_model.findById, hfe, hid, castString, hcast, try_catch, databaseError, bind,
      Except.bind] at h
  rcases hse : env.saveError with _ | m
  swap
  · simp [todo_model.findById, todo_model.save, hfe, hse, hid, castString, hcast, hold,
      try_catch, databaseError, bind, Except.bind] at h
  simp [todo_model.findById, todo_model.save, hfe, hse, hid, castString, hcast, hold,
      try_catch, databaseError, bind, Except.bind, pure, Except.pure] at h
  obtain ⟨hs', hitem⟩ := h
  have hrep : item = replaceProvided old body := by
    rw [← hitem, applyUpdate_eq_replaceProvided old body hv]
  have hiid : item.id = id := by rw [hrep]; exact hoid
  have hmap : s' = s.map (fun x => if x.id == id then item else x) := by
    rw [← hs']; simp [hitem, hiid]
  obtain ⟨ht, ho, hc⟩ := hv
  refine ⟨hrep, by rw [hrep]; rfl, by rw [hrep]; rfl, ?_, ?_, ?_, ?_, ?_, ?_, hmap, ?_, ?_, ?_⟩
  · intro t e; rw [hrep]; simp [replaceProvided, e]
  · intro o e; rw [hrep]; simp [replaceProvided, e]
  · intro b e; rw [hrep]; simp [replaceProvided, e]
  · intro hg
    rw [hrep]
    rcases e : prop body "task" with _ | (_ | b | n | t | xs | ms) <;>
      simp_all [replaceProvided, Given]
  · intro hg
    rw [hrep]
    rcases e : prop body "owner" with _ | (_ | b | n | t | xs | ms) <;>
      simp_all [replaceProvided, Given]
  · intro hg
    rw [hrep]
    rcases e : prop body "completed" with _ | (_ | b | n | t | xs | ms) <;>
      simp_all [replaceProvided, Given]
  · have := find?_replace s item id
    rw [hiid] at this
    rw [hmap, this, hold]
    simp [hoid]
  · intro id' hne'
    have := find?_replace s item id'
    rw [hiid] at this
    rw [hmap, this]
    rcases e : s.find? (fun x => x.id == id') with _ | y
    · rw [e]; rfl
    · have hy : y.id = id' := by simpa using List.find?_some e
      rw [e]
      simp [hy, hne']
  · intro hb
    rw [hrep, hb]
    simp [replaceProvided, prop, List.lookup]

theorem patch_todo_frame_witness :
    (⟨0xa1, "Walk dog", "Kim", true, 3⟩ : Item)
        = replaceProvided ⟨0xa1, "Walk dog", "Kim", false, 3⟩
            [("completed", .bool true), ("creation_date", .num 0), ("id", .str "zz")] ∧
      ([⟨0xa1, "Walk dog", "Kim", true, 3⟩, ⟨0xb2, "Buy milk", "Sam", false, 5⟩] : Store).find?
          (fun x => x.id == 0xb2)
        = ([⟨0xa1, "Walk dog", "Kim", false, 3⟩, ⟨0xb2, "Buy milk", "Sam", false, 5⟩] : Store).find?
          (fun x => x.id == 0xb2) :=
  have h := patch_todo_frame (quiet 7 0xc3)
    [⟨0xa1, "Walk dog", "Kim", false, 3⟩, ⟨0xb2, "Buy milk", "Sam", false, 5⟩]
    [⟨0xa1, "Walk dog", "Kim", true, 3⟩, ⟨0xb2, "Buy milk", "Sam", false, 5⟩]
    [("id", .str "0000000000000000000000a1")]
    [("completed", .bool true), ("creation_date", .num 0), ("id", .str "zz")]
    "0000000000000000000000a1" 0xa1
    ⟨0xa1, "Walk dog", "Kim", false, 3⟩ ⟨0xa1, "Walk dog", "Kim", true, 3⟩
    rfl (by decide) rfl (by decide)
  ⟨h.1, h.2.2.2.2.2.2.2.2.2.2.2.1 0xb2 (by decide)⟩

/-- C4, the claim as stated fails: a body whose `task` key is there with the
value `null` has a `task` that is not a non-empty string, yet the request is
not rejected; on a store that has the id it is answered with the success
envelope. -/
theorem patch_todo_null_task_not_rejected :
    hasKey [("task", Json.null)] "task" = true ∧
    ¬ NonEmptyStr (prop [("task", Json.null)] "task") ∧
    patch_todo (quiet 7 0xc3) [⟨0xa1, "Walk dog", "Kim", false, 3⟩]
        [("id", .str "0000000000000000000000a1")] [("task", Json.null)]
      = .ok ([⟨0xa1, "Walk dog", "Kim", false, 3⟩],
          Response.successTodo ⟨0xa1, "Walk dog", "Kim", false, 3⟩) := by
  refine ⟨by decide, ?_, by decide⟩
  simp [NonEmptyStr, prop, List.lookup]

/-- C4, amended: a `PATCH /todo` with a non-empty string id whose body has a
`task` with a value other than `null` that is not a non-empty string, or such
an `owner`, or a `completed` with a value other than `null` that is not a
boolean, is answered with a validation error envelope, one of the three field
messages and so not `Todo not found`; the message is the same for every store
and every behaviour of the store primitives (the store is not consulted), and
the store is returned as it was. -/
theorem patch_todo_rejects_invalid_field (query body : List (String × Json))
    (hid : NonEmptyStr (prop query "id"))
    (h : (Given (prop body "task") ∧ ¬ NonEmptyStr (prop body "task")) ∨
      (Given (prop body "owner") ∧ ¬ NonEmptyStr (prop body "owner")) ∨
      (Given (prop body "completed") ∧ ¬ IsBool (prop body "completed"))) :
    ∃ msg, msg ∈ ["Task must be a non-empty string", "Owner must be a non-empty string",
        "Completed must be a boolean value"] ∧ msg ≠ "Todo not found" ∧
      ∀ (env : Env) (s : Store), patch_todo env s query body = .ok (s, Response.error msg) := by
  have h0 : isNonEmptyString (prop query "id") = true := (isNonEmptyString_iff _).2 hid
  by_cases h1 : (isDefined (prop body "task") && !isNonEmptyString (prop body "task")) = true
  · exact ⟨"Task must be a non-empty string", by simp, by decide,
      fun env s => by simp only [patch_todo, h0, h1]; simp⟩
  by_cases h2 : (isDefined (prop body "owner") && !isNonEmptyString (prop body "owner")) = true
  · exact ⟨"Owner must be a non-empty string", by simp, by decide,
      fun env s => by simp only [patch_todo, h0, h1, h2]; simp⟩
  by_cases h3 : (isDefined (prop body "completed")
      && (typeOf (prop body "completed") != "boolean")) = true
  · exact ⟨"Completed must be a boolean value", by simp, by decide,
      fun env s => by simp only [patch_todo, h0, h1, h2, h3]; simp⟩
  exfalso
  rcases h with ⟨hg, hn⟩ | ⟨hg, hn⟩ | ⟨hg, hn⟩
  · have := (isDefined_iff _).2 hg
    exact hn ((isNonEmptyString_iff _).1 (by simpa [this] using h1))
  · have := (isDefined_iff _).2 hg
    exact hn ((isNonEmptyString_iff _).1 (by simpa [this] using h2))
  · have := (isDefined_iff _).2 hg
    exact hn ((typeOf_boolean_iff _).1 (by simpa [this] using h3))

theorem patch_todo_rejects_invalid_field_witness :
    ∃ msg, msg ∈ ["Task must be a non-empty string", "Owner must be a non-empty string",
        "Completed must be a boolean value"] ∧ msg ≠ "Todo not found" ∧
      ∀ (env : Env) (s : Store),
        patch_todo env s [("id", .str "0000000000000000000000a1")] [("completed", .str "yes")]
          = .ok (s, Response.error msg) :=
  patch_todo_rejects_invalid_field [("id", .str "0000000000000000000000a1")] [("completed", .str "yes")]
    ⟨"0000000000000000000000a1", rfl, by decide⟩
    (by simp [Given, NonEmptyStr, IsBool, prop, List.lookup])

/-! ## Delete, and ids that are not in the store -/

/-- What the lookup of `PATCH /todo` returns. -/
theorem findById_eq (env : Env) (s : Store) (idText : String) :
    todo_model.findById env s idText =
      if isObjectIdString idText then
        match env.findByIdError with
        | some m => .error m
        | none => .ok (s.find? (fun x => x.id == objectIdValue idText))
      else .error (castErrorMessage idText) := by
  unfold todo_model.findById castObjectId
  cases isObjectIdString idText <;> rfl

/-- What the lookup of `DELETE /todo` returns. -/
theorem findByIdAndDelete_eq (env : Env) (s : Store) (idText : String) :
    todo_model.findByIdAndDelete env s idText =
      if isObjectIdString idText then
        match env.findByIdAndDeleteError with
        | some m => .error m
        | none =>
          match s.find? (fun x => x.id == objectIdValue idText) with
          | none => .ok (s, none)
          | some doc => .ok (s.filter (fun x => x.id != objectIdValue idText), some doc)
      else .error (castErrorMessage idText) := by
  unfold todo_model.findByIdAndDelete castObjectId
  cases isObjectIdString idText <;> rfl

/-- What `DELETE /todo` does once the id has passed validation. -/
theorem delete_todo_of_valid (env : Env) (s : Store) (query : List (String × Json))
    (idText : String) (hid : prop query "id" = some (.str idText)) (hlen : 0 < idText.length) :
    delete_todo env s query =
      if isObjectIdString idText then
        match env.findByIdAndDeleteError with
        | some m => .ok (s, Response.error ("Database Error: " ++ m))
        | none =>
          match s.find? (fun x => x.id == objectIdValue idText) with
          | none => .ok (s, Response.error "Todo not found")
          | some _ => .ok (s.filter (fun x => x.id != objectIdValue idText), Response.success)
      else .ok (s, Response.error ("Database Error: " ++ castErrorMessage idText)) := by
  have h0 : isNonEmptyString (prop query "id") = true :=
    (isNonEmptyString_iff _).2 ⟨idText, hid, hlen⟩
  simp only [delete_todo, h0]
  simp only [hid, castString, findByIdAndDelete_eq]
  cases isObjectIdString idText
  · simp [try_catch, databaseError, bind, Except.bind]
  · rcases he : env.findByIdAndDeleteError with _ | m
    · rcases hf : s.find? (fun x => x.id == objectIdValue idText) with _ | y <;>
        simp [hf, try_catch, bind, Except.bind, pure, Except.pure]
    · simp [try_catch, databaseError, bind, Except.bind]

/-- What `PATCH /todo` does with an id that no stored item has, once the id and
the body have passed validation. -/
theorem patch_todo_of_unknown (env : Env) (s : Store) (query body : List (String × Json))
    (idText : String) (hid : prop query "id" = some (.str idText)) (hlen : 0 < idText.length)
    (hv : ValidUpdate body)
    (hno : s.find? (fun x => x.id == objectIdValue idText) = none) :
    patch_todo env s query body =
      if isObjectIdString idText then
        match env.findByIdError with
        | some m => .ok (s, Response.error ("Database Error: " ++ m))
        | none => .ok (s, Response.error "Todo not found")
      else .ok (s, Response.error ("Database Error: " ++ castErrorMessage idText)) := by
  rw [patch_todo_of_valid env s query body ⟨idText, hid, hlen⟩ hv]
  simp only [hid, castString, findById_eq]
  cases isObjectIdString idText
  · simp [try_catch, databaseError, bind, Except.bind]
  · rcases he : env.findByIdError with _ | m
    · simp [hno, try_catch, bind, Except.bind, pure, Except.pure]
    · simp [try_catch, databaseError, bind, Except.bind]

theorem find?_remove_ne (s : Store) (id id' : ObjectId) (hne : id' ≠ id) :
    (s.filter (fun x => x.id != id)).find? (fun x => x.id == id')
      = s.find? (fun x => x.id == id') := by
  induction s with
  | nil => rfl
  | cons a as ih =>
    by_cases ha : a.id = id <;> by_cases ha' : a.id = id' <;>
      simp_all [List.filter_cons, List.find?_cons]

/-- C5, the claim as stated fails: `5` is a non-empty string id that no stored
item has, and a `PATCH /todo` with it is answered `Database Error: Cast to
ObjectId failed ...`, not `Todo not found`, because the lookup throws for a
string that is not 24 hexadecimal digits. -/
theorem patch_todo_unknown_id_cast_throws :
    (∀ x ∈ ([⟨0xa1, "Walk dog", "Kim", false, 3⟩] : Store),
      castObjectId "5" ≠ .ok x.id) ∧
    patch_todo (quiet 7 0xc3) [⟨0xa1, "Walk dog", "Kim", false, 3⟩] [("id", .str "5")]
        [("completed", .bool true)]
      = .ok ([⟨0xa1, "Walk dog", "Kim", false, 3⟩],
          Response.error ("Database Error: Cast to ObjectId failed for value \"5\" "
            ++ "(type string) at path \"_id\" for model \"todos\"")) ∧
    patch_todo (quiet 7 0xc3) [⟨0xa1, "Walk dog", "Kim", false, 3⟩] [("id", .str "5")]
        [("completed", .bool true)]
      ≠ .ok ([⟨0xa1, "Walk dog", "Kim", false, 3⟩], Response.error "Todo not found") := by
  decide

/-- C5, amended: for every store and every non-empty string id that is the id
of no item in the store, a `PATCH /todo` with that id and a body that passes
field validation, and a `DELETE /todo` with that id, each leave the store as it
was and return an error envelope: when the id is 24 hexadecimal digits, `Todo
not found` if the store call does not throw and `Database Error: m` if it
throws with message `m`; when the id is not 24 hexadecimal digits, `Database
Error:` followed by the message of the cast error. -/
theorem unknown_id_error (env : Env) (s : Store) (query body : List (String × Json))
    (idText : String) (hid : prop query "id" = some (.str idText)) (hlen : 0 < idText.length)
    (hno : ∀ x ∈ s, castObjectId idText ≠ .ok x.id) (hv : ValidUpdate body) :
    (isObjectIdString idText = true → env.findByIdError = none →
      patch_todo env s query body = .ok (s, Response.error "Todo not found")) ∧
    (isObjectIdString idText = true → env.findByIdAndDeleteError = none →
      delete_todo env s query = .ok (s, Response.error "Todo not found")) ∧
    (∀ m, isObjectIdString idText = true → env.findByIdError = some m →
      patch_todo env s query body = .ok (s, Response.error ("Database Error: " ++ m))) ∧
    (∀ m, isObjectIdString idText = true → env.findByIdAndDeleteError = some m →
      delete_todo env s query = .ok (s, Response.error ("Database Error: " ++ m))) ∧
    (isObjectIdString idText = false →
      patch_todo env s query body
        = .ok (s, Response.error ("Database Error: " ++ castErrorMessage idText)) ∧
      delete_todo env s query
        = .ok (s, Response.error ("Database Error: " ++ castErrorMessage idText))) := by
  have hf : isObjectIdString idText = true →
      s.find? (fun x => x.id == objectIdValue idText) = none := by
    intro hfmt
    rw [List.find?_eq_none]
    intro x hx hxid
    have hx' : x.id = objectIdValue idText := by simpa using hxid
    exact hno x hx ((castObjectId_ok_iff _ _).2 ⟨hfmt, hx'.symm⟩)
  refine ⟨?_, ?_, ?_, ?_, ?_⟩
  · intro hfmt he
    rw [patch_todo_of_unknown env s query body idText hid hlen hv (hf hfmt)]
    simp [hfmt, he]
  · intro hfmt he
    rw [delete_todo_of_valid env s query idText hid hlen]
    simp [hfmt, he, hf hfmt]
  · intro m hfmt he
    rw [patch_todo_of_unknown env s query body idText hid hlen hv (hf hfmt)]
    simp [hfmt, he]
  · intro m hfmt he
    rw [delete_todo_of_valid env s query idText hid hlen]
    simp [hfmt, he]
  · intro hfmt
    constructor
    · rw [patch_todo_of_valid env s query body ⟨idText, hid, hlen⟩ hv]
      simp [hid, castString, findById_eq, hfmt, try_catch, databaseError, bind, Except.bind]
    · rw [delete_todo_of_valid env s query idText hid hlen]
      simp [hfmt]

theorem unknown_id_error_witness :
    patch_todo (quiet 7 0xc3) [⟨0xa1, "Walk dog", "Kim", false, 3⟩]
        [("id", .str "0000000000000000000000ff")] [("owner", .str "Lee")]
      = .ok ([⟨0xa1, "Walk dog", "Kim", false, 3⟩], Response.error "Todo not found") ∧
    delete_todo (quiet 7 0xc3) [⟨0xa1, "Walk dog", "Kim", false, 3⟩]
        [("id", .str "0000000000000000000000ff")]
      = .ok ([⟨0xa1, "Walk dog", "Kim", false, 3⟩], Response.error "Todo not found") :=
  have h := unknown_id_error (quiet 7 0xc3) [⟨0xa1, "Walk dog", "Kim", false, 3⟩]
    [("id", .str "0000000000000000000000ff")] [("owner", .str "Lee")]
    "0000000000000000000000ff" rfl (by decide) (by decide)
    (by
      refine ⟨fun h => ?_, fun _ => ⟨"Lee", rfl, by decide⟩, fun h => ?_⟩ <;>
        simp [Given, prop, List.lookup] at h)
  ⟨h.1 (by decide) rfl, h.2.1 (by decide) rfl⟩

/-- The id of a lookup is compared as an ObjectId: the upper-case spelling of a
stored id finds the item, which is then updated. -/
theorem patch_todo_upper_case_id :
    patch_todo (quiet 7 0xc3) [⟨0xa1, "Walk dog", "Kim", false, 3⟩]
        [("id", .str "0000000000000000000000A1")] [("completed", .bool true)]
      = .ok ([⟨0xa1, "Walk dog", "Kim", true, 3⟩],
          Response.successTodo ⟨0xa1, "Walk dog", "Kim", true, 3⟩) := by
  decide

/-- C6, the claim as stated fails: for an id of a stored item, a first `DELETE
/todo` whose store call throws is answered `Database Error: ...` and removes
nothing. -/
theorem delete_todo_store_throws :
    (∃ x ∈ ([⟨0xa1, "Walk dog", "Kim", false, 3⟩] : Store),
      castObjectId "0000000000000000000000a1" = .ok x.id) ∧
    delete_todo { quiet 7 0xc3 with findByIdAndDeleteError := some "connection closed" }
        [⟨0xa1, "Walk dog", "Kim", false, 3⟩] [("id", .str "0000000000000000000000a1")]
      = .ok ([⟨0xa1, "Walk dog", "Kim", false, 3⟩],
          Response.error "Database Error: connection closed") := by
  decide

/-- C6, amended: for every store and every id of an item in it, when the store's
delete primitive throws at neither call: the first `DELETE /todo` with that id
returns the bare envelope `{status:"success"}` and removes exactly the item
with that id, every other item staying as it was; a second `DELETE /todo` with
the same id, right after, returns `Todo not found` and leaves the store as the
first delete left it. -/
theorem delete_todo_twice (env₁ env₂ : Env) (s : Store) (query : List (String × Json))
    (idText : String) (id : ObjectId)
    (hid : prop query "id" = some (.str idText)) (hcast : castObjectId idText = .ok id)
    (hin : ∃ x ∈ s, x.id = id)
    (h₁ : env₁.findByIdAndDeleteError = none) (h₂ : env₂.findByIdAndDeleteError = none) :
    ∃ s₁ : Store,
      delete_todo env₁ s query = .ok (s₁, Response.success) ∧
      (∀ x, x ∈ s₁ ↔ x ∈ s ∧ x.id ≠ id) ∧
      s₁ = s.filter (fun x => x.id != id) ∧
      s₁.find? (fun x => x.id == id) = none ∧
      (∀ id', id' ≠ id →
        s₁.find? (fun x => x.id == id') = s.find? (fun x => x.id == id')) ∧
      delete_todo env₂ s₁ query = .ok (s₁, Response.error "Todo not found") := by
  obtain ⟨x₀, hx₀, hx₀id⟩ := hin
  obtain ⟨hfmt, hval⟩ := (castObjectId_ok_iff _ _).1 hcast
  have hlen := length_pos_of_castObjectId idText id hcast
  have hsome : ∃ y, s.find? (fun x => x.id == id) = some y := by
    rcases hf : s.find? (fun x => x.id == id) with _ | y
    · exact absurd hx₀id (by simpa using (List.find?_eq_none.1 hf) x₀ hx₀)
    · exact ⟨y, hf⟩
  obtain ⟨y, hy⟩ := hsome
  have hnone : (s.filter (fun x => x.id != id)).find? (fun x => x.id == id) = none := by
    simp [List.find?_eq_none]
  refine ⟨s.filter (fun x => x.id != id), ?_, ?_, rfl, hnone, ?_, ?_⟩
  · rw [delete_todo_of_valid env₁ s query idText hid hlen]
    simp [hfmt, hval, h₁, hy]
  · intro x; simp
  · intro id' hne
    exact find?_remove_ne s id id' hne
  · rw [delete_todo_of_valid env₂ _ query idText hid hlen]
    simp [hfmt, hval, h₂, hnone]

theorem delete_todo_twice_witness :
    ∃ s₁ : Store,
      delete_todo (quiet 7 0xc3)
          [⟨0xa1, "Walk dog", "Kim", false, 3⟩, ⟨0xb2, "Buy milk", "Sam", false, 5⟩]
          [("id", .str "0000000000000000000000a1")] = .ok (s₁, Response.success) ∧
      s₁ = [⟨0xb2, "Buy milk", "Sam", false, 5⟩] ∧
      delete_todo (quiet 8 0xc4) s₁ [("id", .str "0000000000000000000000a1")]
        = .ok (s₁, Response.error "Todo not found") :=
  have ⟨s₁, h⟩ := delete_todo_twice (quiet 7 0xc3) (quiet 8 0xc4)
    [⟨0xa1, "Walk dog", "Kim", false, 3⟩, ⟨0xb2, "Buy milk", "Sam", false, 5⟩]
    [("id", .str "0000000000000000000000a1")] "0000000000000000000000a1" 0xa1 rfl
    (by decide) ⟨⟨0xa1, "Walk dog", "Kim", false, 3⟩, by simp, rfl⟩ rfl rfl
  ⟨s₁, h.1, h.2.2.1.trans (by decide), h.2.2.2.2.2⟩

/-! ## The invariant on stored items -/

theorem replaceProvided_nonEmpty (old : Item) (body : List (String × Json))
    (hv : ValidUpdate body) (hold : 0 < old.task.length ∧ 0 < old.owner.length) :
    0 < (replaceProvided old body).task.length ∧ 0 < (replaceProvided old body).owner.length := by
  obtain ⟨ht, ho, _⟩ := hv
  constructor
  · rcases e : prop body "task" with _ | (_ | b | n | t | xs | ms) <;>
      simp_all [replaceProvided, Given, NonEmptyStr]
  · rcases e : prop body "owner" with _ | (_ | b | n | t | xs | ms) <;>
      simp_all [replaceProvided, Given, NonEmptyStr]

theorem post_create_of_invalid (env : Env) (s : Store) (query : List (String × Json))
    (h : ¬ (NonEmptyStr (prop query "task") ∧ NonEmptyStr (prop query "owner"))) :
    post_create env s query = .ok (s, Response.error "Task must be a non-empty string") ∨
    post_create env s query = .ok (s, Response.error "Owner must be a non-empty string") := by
  cases h1 : isNonEmptyString (prop query "task")
  · left; simp [post_create, h1]
  · have h2 : isNonEmptyString (prop query "owner") = false :=
      (isNonEmptyString_eq_false_iff _).2
        (fun ho => h ⟨(isNonEmptyString_iff _).1 h1, ho⟩)
    right; simp [post_create, h1, h2]

theorem post_create_nonEmpty (env : Env) (s s' : Store) (query : List (String × Json))
    (resp : Response) (hinv : NonEmptyFields s)
    (h : post_create env s query = .ok (s', resp)) : NonEmptyFields s' := by
  by_cases hq : NonEmptyStr (prop query "task") ∧ NonEmptyStr (prop query "owner")
  swap
  · have hr := post_create_of_invalid env s query hq
    rcases hr with hr | hr <;> (rw [hr] at h; simp at h; rw [← h.1]; exact hinv)
  obtain ⟨⟨t, ht, htl⟩, ⟨o, ho, hol⟩⟩ := hq
  have h1 : isNonEmptyString (prop query "task") = true :=
    (isNonEmptyString_iff _).2 ⟨t, ht, htl⟩
  have h2 : isNonEmptyString (prop query "owner") = true :=
    (isNonEmptyString_iff _).2 ⟨o, ho, hol⟩
  simp only [post_create, h1, h2] at h
  rcases hse : env.saveError with _ | m
  · by_cases hdup : s.any (fun x => x.id == env.newId) = true
    · simp [todo_model.save, hse, hdup, try_catch, databaseError, bind, Except.bind] at h
      rw [← h.1]; exact hinv
    · simp [todo_model.save, hse, hdup, try_catch, databaseError, bind, Except.bind, pure,
        Except.pure, ht, ho, castString] at h
      rw [← h.1]
      intro x hx
      rcases List.mem_append.1 hx with hx | hx
      · exact hinv x hx
      · simp at hx; subst hx; exact ⟨htl, hol⟩
  · simp [todo_model.save, hse, try_catch, databaseError, bind, Except.bind] at h
    rw [← h.1]; exact hinv

theorem patch_todo_nonEmpty (env : Env) (s s' : Store) (query body : List (String × Json))
    (resp : Response) (hinv : NonEmptyFields s)
    (h : patch_todo env s query body = .ok (s', resp)) : NonEmptyFields s' := by
  by_cases hval : NonEmptyStr (prop query "id") ∧ ValidUpdate body
  swap
  · obtain ⟨msg, _, hmsg⟩ := patch_todo_of_invalid env s query body hval
    rw [hmsg] at h; simp at h; rw [← h.1]; exact hinv
  obtain ⟨hne, hv⟩ := hval
  rw [patch_todo_of_valid env s query body hne hv, findById_eq] at h
  cases hfmt : isObjectIdString (castString (prop query "id"))
  · simp [hfmt, try_catch, databaseError, bind, Except.bind] at h
    rw [← h.1]; exact hinv
  rcases hfe : env.findByIdError with _ | m
  swap
  · simp [hfmt, hfe, try_catch, databaseError, bind, Except.bind] at h
    rw [← h.1]; exact hinv
  rcases hf : s.find? (fun x => x.id == objectIdValue (castString (prop query "id")))
    with _ | old
  · simp [hfmt, hfe, hf, try_catch, bind, Except.bind, pure, Except.pure] at h
    rw [← h.1]; exact hinv
  rcases hse : env.saveError with _ | m
  swap
  · simp [todo_model.save, hfmt, hfe, hf, hse, try_catch, databaseError, bind,
      Except.bind] at h
    rw [← h.1]; exact hinv
  simp [todo_model.save, hfmt, hfe, hf, hse, try_catch, bind, Except.bind,
    pure, Except.pure] at h
  have hold : old ∈ s := List.mem_of_find?_eq_some hf
  have hnew := replaceProvided_nonEmpty old body hv (hinv old hold)
  rw [← applyUpdate_eq_replaceProvided old body hv] at hnew
  rw [← h.1]
  intro x hx
  obtain ⟨y, hy, rfl⟩ := List.mem_map.1 hx
  split_ifs
  · exact hnew
  · exact hinv y hy

theorem delete_todo_nonEmpty (env : Env) (s s' : Store) (query : List (String × Json))
    (resp : Response) (hinv : NonEmptyFields s)
    (h : delete_todo env s query = .ok (s', resp)) : NonEmptyFields s' := by
  unfold delete_todo at h
  split_ifs at h with h0
  · simp at h; rw [← h.1]; exact hinv
  rw [findByIdAndDelete_eq] at h
  cases hfmt : isObjectIdString (castString (prop query "id"))
  · simp [hfmt, try_catch, databaseError, bind, Except.bind] at h
    rw [← h.1]; exact hinv
  rcases he : env.findByIdAndDeleteError with _ | m
  swap
  · simp [hfmt, he, try_catch, databaseError, bind, Except.bind] at h
    rw [← h.1]; exact hinv
  rcases hf : s.find? (fun x => x.id == objectIdValue (castString (prop query "id")))
    with _ | old
  · simp [hfmt, he, hf, try_catch, bind, Except.bind, pure, Except.pure] at h
    rw [← h.1]; exact hinv
  · simp [hfmt, he, hf, try_catch, bind, Except.bind, pure, Except.pure] at h
    rw [← h.1]
    intro x hx
    exact hinv x (List.mem_filter.1 hx).1

theorem get_todos_store (env : Env) (s s' : Store) (resp : Response)
    (h : get_todos env s = .ok (s', resp)) : s' = s := by
  rcases he : env.findError with _ | m <;>
    simp [get_todos, todo_model.find, he, try_catch, databaseError, bind, Except.bind, pure,
      Except.pure] at h <;> exact h.1.symm

theorem handle_nonEmpty (env : Env) (s s' : Store) (req : Request) (resp : Response)
    (hinv : NonEmptyFields s) (h : handle env s req = .ok (s', resp)) : NonEmptyFields s' := by
  cases req with
  | getTodos => rw [get_todos_store env s s' resp h]; exact hinv
  | create query => exact post_create_nonEmpty env s s' query resp hinv h
  | patch query body => exact patch_todo_nonEmpty env s s' query body resp hinv h
  | delete query => exact delete_todo_nonEmpty env s s' query resp hinv h

/-- C7: if every stored item has a task and an owner of length > 0, then after
any single request to `GET /todos`, `POST /create`, `PATCH /todo` or `DELETE
/todo`, with any query, any body and any behaviour of the store primitives,
every stored item still has; hence it holds in every store reachable from the
empty store. -/
theorem nonEmptyFields_invariant :
    (∀ (env : Env) (s s' : Store) (req : Request) (resp : Response),
      NonEmptyFields s → handle env s req = .ok (s', resp) → NonEmptyFields s') ∧
    (∀ s : Store, Reachable s → NonEmptyFields s) := by
  refine ⟨fun env s s' req resp hinv h => handle_nonEmpty env s s' req resp hinv h, ?_⟩
  intro s hs
  induction hs with
  | empty => intro x hx; cases hx
  | step _ h ih => exact handle_nonEmpty _ _ _ _ _ ih h

/-! ## Store failures -/

/-- C8: each of the four handlers, for every store, query and body and every
behaviour of the store primitives, returns a response (no failure leaves the
handler); and whenever a store primitive that the handler calls fails with
message `m`, the response is `{status:"error", message:"Database Error: " ++
m}`. -/
theorem handlers_wrap_store_failures (env : Env) (s : Store)
    (query body : List (String × Json)) :
    (∃ out, get_todos env s = .ok out) ∧
    (∃ out, post_create env s query = .ok out) ∧
    (∃ out, patch_todo env s query body = .ok out) ∧
    (∃ out, delete_todo env s query = .ok out) ∧
    (∀ m, todo_model.find env s = .error m →
      get_todos env s = .ok (s, Response.error ("Database Error: " ++ m))) ∧
    (∀ m, NonEmptyStr (prop query "task") → NonEmptyStr (prop query "owner") →
      todo_model.save env s true
          { id := env.newId, task := castString (prop query "task"),
            owner := castString (prop query "owner"), completed := false,
            creation_date := env.now } = .error m →
      post_create env s query = .ok (s, Response.error ("Database Error: " ++ m))) ∧
    (∀ m, NonEmptyStr (prop query "id") → ValidUpdate body →
      todo_model.findById env s (castString (prop query "id")) = .error m →
      patch_todo env s query body = .ok (s, Response.error ("Database Error: " ++ m))) ∧
    (∀ m old, NonEmptyStr (prop query "id") → ValidUpdate body →
      todo_model.findById env s (castString (prop query "id")) = .ok (some old) →
      todo_model.save env s false (applyUpdate old body) = .error m →
      patch_todo env s query body = .ok (s, Response.error ("Database Error: " ++ m))) ∧
    (∀ m, NonEmptyStr (prop query "id") →
      todo_model.findByIdAndDelete env s (castString (prop query "id")) = .error m →
      delete_todo env s query = .ok (s, Response.error ("Database Error: " ++ m))) := by
  have total : ∀ {α : Type} (b : Except String α) (hd : String → Except String α),
      (∀ m, ∃ out, hd m = .ok out) → ∃ out, try_catch b hd = .ok out := by
    intro α b hd hh
    cases b with
    | ok a => exact ⟨a, rfl⟩
    | error m => exact hh m
  have hdb : ∀ m, ∃ out, databaseError s m = .ok out := fun m => ⟨_, rfl⟩
  refine ⟨total _ _ hdb, ?_, ?_, ?_, ?_, ?_, ?_, ?_, ?_⟩
  · unfold post_create
    split_ifs
    · exact ⟨_, rfl⟩
    · exact ⟨_, rfl⟩
    · exact total _ _ hdb
  · unfold patch_todo
    dsimp only
    split_ifs
    · exact ⟨_, rfl⟩
    · exact ⟨_, rfl⟩
    · exact ⟨_, rfl⟩
    · exact ⟨_, rfl⟩
    · exact total _ _ hdb
  · unfold delete_todo
    split_ifs
    · exact ⟨_, rfl⟩
    · exact total _ _ hdb
  · intro m hm
    simp [get_todos, hm, try_catch, databaseError, bind, Except.bind]
  · intro m ht ho hm
    have h1 := (isNonEmptyString_iff _).2 ht
    have h2 := (isNonEmptyString_iff _).2 ho
    simp only [post_create, h1, h2]
    simp [hm, try_catch, databaseError, bind, Except.bind]
  · intro m hid hv hm
    rw [patch_todo_of_valid env s query body hid hv]
    simp [hm, try_catch, databaseError, bind, Except.bind]
  · intro m old hid hv hf hm
    rw [patch_todo_of_valid env s query body hid hv]
    simp [hf, hm, try_catch, databaseError, bind, Except.bind]
  · intro m hid hm
    have h0 := (isNonEmptyString_iff _).2 hid
    simp only [delete_todo, h0]
    simp [hm, try_catch, databaseError, bind, Except.bind]

/-! ## The client adapter -/

theorem isErrorString_iff (v : Option Json) :
    isErrorString v = true ↔ v = some (.str "error") := by
  rcases v with _ | (_ | b | n | s | xs | ms) <;> simp [isErrorString]

theorem member_of_ne_null (results : Json) (key : String) (h : results ≠ Json.null) :
    member results key = .ok (fieldOf results key) := by
  cases results <;> first | exact absurd rfl h | rfl

/-- The shared body of the three adapter calls, on a fetch result whose `ok` is
not true or whose body is not `null`. -/
theorem adapterOutcome_of (r : FetchResult) (payload : Option Json)
    (unwrap : Except Thrown (Option Json)) (hu : r.body ≠ Json.null → unwrap = .ok payload)
    (h : r.ok = false ∨ r.body ≠ Json.null) :
    AdapterOutcome r payload
      (if (r.ok != true) = true then .error (Thrown.error (some (.str r.statusText)))
       else do
        let status ← member r.body "status"
        if isErrorString status then
          let message ← member r.body "message"
          .error (Thrown.error message)
        else unwrap) := by
  cases hok : r.ok
  · refine ⟨?_, ?_, ?_, ?_⟩ <;> simp [hok]
  · have hb : r.body ≠ Json.null := by
      rcases h with h | h
      · rw [hok] at h; cases h
      · exact h
    by_cases hs : fieldOf r.body "status" = some (.str "error")
    · have he := (isErrorString_iff _).2 hs
      refine ⟨?_, ?_, ?_, ?_⟩ <;>
        simp [hok, member_of_ne_null _ _ hb, hs, isErrorString, bind, Except.bind]
    · have he : isErrorString (fieldOf r.body "status") = false := by
        cases hc : isErrorString (fieldOf r.body "status")
        · rfl
        · exact absurd ((isErrorString_iff _).1 hc) hs
      refine ⟨?_, ?_, ?_, ?_⟩ <;>
        simp [hok, member_of_ne_null _ _ hb, he, hs, hu hb, bind, Except.bind]

/-- C9, the claim as stated fails: on a fetch result with `ok` true whose body
parses to `null`, `getTodos` fails (reading `status` of `null` throws) although
the body's `status` is not `"error"`. -/
theorem getTodos_null_body_throws :
    getTodos (fun _ => { ok := true, statusText := "OK", body := Json.null })
      = .error Thrown.typeError ∧
    fieldOf Json.null "status" ≠ some (.str "error") :=
  ⟨rfl, by simp [fieldOf]⟩

/-- C9, amended: on every fetch result whose `ok` is not true or whose parsed
body is not `null`, each of `getTodos`, `createTodo` and `markTodo` fails if
and only if `ok` is not true (the failure carries the status text) or `ok` is
true and the body's `status` is `"error"` (the failure carries the body's
`message`); in every other case it returns the payload, the whole body for
`getTodos` and the body's `todo` for the other two. When `ok` is not true
the outcome does not depend on the body. -/
theorem adapter_outcome (fetch : FetchCall → FetchResult) (task owner id : String)
    (completed : Bool)
    (h : ∀ call, (fetch call).ok = false ∨ (fetch call).body ≠ Json.null) :
    AdapterOutcome (fetch { url := getToDosURL, method := "GET", body := none })
      (some (fetch { url := getToDosURL, method := "GET", body := none }).body)
      (getTodos fetch) ∧
    AdapterOutcome (fetch (createTodoCall task owner))
      (fieldOf (fetch (createTodoCall task owner)).body "todo")
      (createTodo fetch task owner) ∧
    AdapterOutcome (fetch (markTodoCall id completed))
      (fieldOf (fetch (markTodoCall id completed)).body "todo")
      (markTodo fetch id completed) := by
  refine ⟨?_, ?_, ?_⟩
  · exact adapterOutcome_of _ _ _ (fun _ => rfl) (h _)
  · exact adapterOutcome_of _ _ _ (fun hb => member_of_ne_null _ _ hb) (h _)
  · exact adapterOutcome_of _ _ _ (fun hb => member_of_ne_null _ _ hb) (h _)

theorem adapter_outcome_witness :
    AdapterOutcome
      ⟨true, "OK", .obj [("status", .str "error"), ("message", .str "Todo not found")]⟩
      none
      (markTodo
        (fun _ => ⟨true, "OK", .obj [("status", .str "error"), ("message", .str "Todo not found")]⟩)
        "0000000000000000000000a1" true) :=
  (adapter_outcome
    (fun _ => ⟨true, "OK", .obj [("status", .str "error"), ("message", .str "Todo not found")]⟩)
    "Buy milk" "Sam" "0000000000000000000000a1" true (fun _ => Or.inr (by simp))).2.2

/-! ## What the server sees of a create request -/

/-- C10, evaluated at a failing input: for the non-empty strings `Q&A` and
`Sam`, the query of the URL that `createTodo` builds has the `task` value `Q`,
not `Q&A`, and a third pair. -/
theorem createTodo_query_ampersand :
    queryPairs (createTodoCall "Q&A" "Sam").url
      = [("task", "Q"), ("A", ""), ("owner", "Sam")] ∧
    valuesOf (queryPairs (createTodoCall "Q&A" "Sam").url) "task" ≠ ["Q&A"] := by
  decide

end Todo
